import Mathlib

/-!
Verification of the privacyIDEA policy engine.

This file gives a shallow embedding of the policy matching core in
`privacyidea/lib/policy.py` (class `PolicyClass` with `get_policies` and
`get_action_values`, plus `export_policies` / `import_policies` /
`set_policy`) and of the API pre-condition checks in
`privacyidea/api/lib/prepolicy.py` (`check_otp_pin`,
`check_max_token_user`, `check_base_action`), together with theorems
about their behavior.

Python strings are modelled as Lean `String` and string operations are
implemented over the underlying character list so that every definition
evaluates by kernel reduction.  Python exceptions are modelled with the
`Except` monad over an explicit error type.
-/

/-- Error kinds raised by the embedded code: `policyError` models
`PolicyError`, `typeError` models a Python `TypeError` (for example an
unexpected keyword argument), `indexError` models `IndexError`,
`valueError` models `ValueError` from `int()`, and `addrFormatError`
models the netaddr parse failure. -/
inductive PiError where
  | policyError (msg : String)
  | typeError (msg : String)
  | indexError
  | valueError
  | addrFormatError
deriving DecidableEq

/-- Single quote character, written by code point to keep source plain. -/
def squote : Char := Char.ofNat 39

/-- Single quote as a one character string. -/
def squoteStr : String := ⟨[squote]⟩

/-- Python `s[:1]`, the first character of a string as a string. -/
def pyTake1 (s : String) : String := ⟨s.data.take 1⟩

/-- Python `s[1:]`. -/
def pyDrop1 (s : String) : String := ⟨s.data.drop 1⟩

/-- Python `s[1:-1]`, used to strip the outer quotes of an action value. -/
def pyInnerStrip (s : String) : String := ⟨(s.data.drop 1).dropLast⟩

/-- Python `s.startswith(t)`. -/
def pyStartsWith (s t : String) : Bool := s.data.take t.data.length == t.data

/-- Python `s.endswith(t)`. -/
def pyEndsWith (s t : String) : Bool :=
  s.data.drop (s.data.length - t.data.length) == t.data

/-- Helper for Python `s.split()`: accumulates the current token in
reverse while scanning the character list. -/
def wsSplitAux : List Char → List Char → List String
  | [], acc => if acc.isEmpty then [] else [⟨acc.reverse⟩]
  | c :: cs, acc =>
      if c.isWhitespace then
        if acc.isEmpty then wsSplitAux cs [] else ⟨acc.reverse⟩ :: wsSplitAux cs []
      else wsSplitAux cs (c :: acc)

/-- Python `s.split()` with no argument: split on runs of whitespace,
discarding empty tokens. -/
def pySplitWhitespace (s : String) : List String := wsSplitAux s.data []

/-- Helper for splitting a string on a separator character. -/
def splitOnCharAux (sep : Char) : List Char → List Char → List String
  | [], acc => [⟨acc.reverse⟩]
  | c :: cs, acc =>
      if c == sep then ⟨acc.reverse⟩ :: splitOnCharAux sep cs []
      else splitOnCharAux sep cs (c :: acc)

/-- Python `s.split(sep)` for a single character separator: keeps empty
pieces, and the split of the empty string is one empty piece. -/
def pySplitOnChar (s : String) (sep : Char) : List String :=
  splitOnCharAux sep s.data []

/-- Strip leading and trailing whitespace from a character list. -/
def stripChars (cs : List Char) : List Char :=
  ((cs.dropWhile Char.isWhitespace).reverse.dropWhile Char.isWhitespace).reverse

/-- Python `s.strip()`. -/
def stripStr (s : String) : String := ⟨stripChars s.data⟩

/-- Numeric value of a list of decimal digit characters. -/
def digitsVal (ds : List Char) : Nat :=
  ds.foldl (fun n c => n * 10 + (c.toNat - 48)) 0

/-- Python `int(s)` on a string: optional surrounding whitespace, an
optional sign, then a nonempty run of decimal digits; anything else
raises `ValueError`. -/
def pyInt (s : String) : Except PiError Int :=
  let t := stripChars s.data
  let sd : Int × List Char :=
    match t with
    | '-' :: rest => (-1, rest)
    | '+' :: rest => (1, rest)
    | _ => (1, t)
  if sd.2.isEmpty then .error .valueError
  else if sd.2.all Char.isDigit then .ok (sd.1 * (digitsVal sd.2 : Int))
  else .error .valueError

/-- One policy entry as produced by `Policy.get()` and consumed by
`PolicyClass`: `action` is the mapping from action name to its value
string, and `realm`, `resolver`, `user`, `client` are the pattern lists.
The embedding stores action values as strings; the claims under study
only involve value actions. -/
structure Policy where
  name : String
  scope : String
  action : List (String × String)
  realm : List String
  resolver : List String
  user : List String
  client : List String
  active : Bool
deriving DecidableEq

/-- Keys of the action mapping, which is what iterating the Python
action dict yields inside `get_policies`. -/
def actionKeys (p : Policy) : List String := p.action.map Prod.fst

/-- Python `dict.get(k)` on the action mapping. -/
def lookupAction (a : List (String × String)) (k : String) : Option String :=
  (a.find? (fun kv => kv.1 == k)).map Prod.snd

/-- Condition `len(value) and value[0] in ["!", "-"] and searchvalue ==
value[1:]` from `get_policies`: the entry excludes the searched value. -/
def exclEntry (x v : String) : Bool :=
  !v.data.isEmpty && (pyTake1 v == "!" || pyTake1 v == "-") && x == pyDrop1 v

/-- Condition `value in [searchvalue, "*"]` from `get_policies`: the
entry is a positive match for the searched value. -/
def posEntry (x v : String) : Bool := v == x || v == "*"

/-- One iteration of the value loop in `get_policies`: the pair carries
the `value_found` and `value_excluded` flags. -/
def scanStep (x : String) (fe : Bool × Bool) (v : String) : Bool × Bool :=
  if exclEntry x v then (fe.1, true)
  else if posEntry x v then (true, fe.2)
  else fe

/-- The value loop of `get_policies` over a pattern list. -/
def scanValues (x : String) : List String → Bool × Bool → Bool × Bool
  | [], fe => fe
  | v :: rest, fe => scanValues x rest (scanStep x fe v)

/-- Test `value_found and not value_excluded` for one pattern list, the
per policy decision of the `action`, `user`, `resolver`, `realm`
filters in `get_policies`. -/
def listMatch (values : List String) (x : String) : Bool :=
  let fe := scanValues x values (false, false)
  fe.1 && !fe.2

/-- Exact match filter used for the `name` and `scope` dimensions. -/
def exactFilterStr (get : Policy → String) (v : Option String)
    (ps : List Policy) : List Policy :=
  match v with
  | none => ps
  | some x => ps.filter (fun p => get p == x)

/-- Exact match filter used for the `active` dimension. -/
def exactFilterBool (get : Policy → Bool) (v : Option Bool)
    (ps : List Policy) : List Policy :=
  match v with
  | none => ps
  | some x => ps.filter (fun p => get p == x)

/-- One filtering pass of `get_policies` for a list valued dimension:
the first loop keeps the policies whose pattern list positively matches
without a veto, the second loop then appends every policy whose pattern
list is empty. -/
def listFilterPass (get : Policy → List String) (v : Option String)
    (ps : List Policy) : List Policy :=
  match v with
  | none => ps
  | some x =>
      ps.filter (fun p => listMatch (get p) x)
        ++ ps.filter (fun p => (get p).isEmpty)

/-- Parse a dotted quad IPv4 address into its 32 bit value, modelling
the netaddr `IPAddress` constructor on the standard textual form. -/
def parseIPv4 (s : String) : Option Nat :=
  match (pySplitOnChar s '.').map (fun t =>
      if !t.data.isEmpty && t.data.all Char.isDigit && t.data.length ≤ 3 then
        some (digitsVal t.data)
      else none) with
  | [some a, some b, some c, some d] =>
      if a ≤ 255 && b ≤ 255 && c ≤ 255 && d ≤ 255 then
        some (((a * 256 + b) * 256 + c) * 256 + d)
      else none
  | _ => none

/-- Parse a netaddr `IPNetwork` string: either a bare address, giving a
`/32` network, or `addr/p` with a mask length `p` of at most 32.  The
result is the address value paired with the mask length. -/
def parseIPNetwork (s : String) : Option (Nat × Nat) :=
  match pySplitOnChar s '/' with
  | [a] => (parseIPv4 a).map (fun v => (v, 32))
  | [a, p] =>
      match parseIPv4 a, (if !p.data.isEmpty && p.data.all Char.isDigit then some (digitsVal p.data) else none) with
      | some v, some pl => if pl ≤ 32 then some (v, pl) else none
      | _, _ => none
  | _ => none

/-- Membership of an address in a network: the leading mask bits agree,
which is how netaddr decides `IPAddress(c) in IPNetwork(n)`. -/
def inIPNetwork (addr : Nat) (net : Nat × Nat) : Bool :=
  addr / 2 ^ (32 - net.2) == net.1 / 2 ^ (32 - net.2)

/-- Test `polclient[0] in ['-', '!']` on a client entry. -/
def leadNeg (e : String) : Bool :=
  match e.data with
  | [] => false
  | ch :: _ => ch == '-' || ch == '!'

/-- Containment of the request client inside the network parsed from a
pattern string; false if either side fails to parse (the parse failure
itself is reported as an exception by `clientScanStep`). -/
def netContains (pat c : String) : Bool :=
  match parseIPv4 c, parseIPNetwork pat with
  | some a, some n => inIPNetwork a n
  | _, _ => false

/-- The client entry is not an exclusion and its network contains the
request client. -/
def clientInc (c e : String) : Bool := !leadNeg e && netContains e c

/-- The client entry is an exclusion and the network after the leading
sign contains the request client. -/
def clientExc (c e : String) : Bool := leadNeg e && netContains (pyDrop1 e) c

/-- One iteration of the client loop of `get_policies`: an empty entry
raises `IndexError` from `polclient[0]`, an unparsable address or
network raises the netaddr error, otherwise the `client_found` or
`client_excluded` flag is updated. -/
def clientScanStep (c : String) (fe : Bool × Bool) (e : String) :
    Except PiError (Bool × Bool) :=
  if e.data.isEmpty then .error .indexError
  else if leadNeg e then
    match parseIPv4 c, parseIPNetwork (pyDrop1 e) with
    | some a, some n => .ok (if inIPNetwork a n then (fe.1, true) else fe)
    | _, _ => .error .addrFormatError
  else
    match parseIPv4 c, parseIPNetwork e with
    | some a, some n => .ok (if inIPNetwork a n then (true, fe.2) else fe)
    | _, _ => .error .addrFormatError

/-- The client loop of `get_policies` over one pattern list. -/
def clientScan (c : String) : List String → Bool × Bool → Except PiError (Bool × Bool)
  | [], fe => .ok fe
  | e :: rest, fe =>
      match clientScanStep c fe e with
      | .error err => .error err
      | .ok fe2 => clientScan c rest fe2

/-- Decision `client_found and not client_excluded` for one policy. -/
def clientListMatch (entries : List String) (c : String) : Except PiError Bool :=
  match clientScan c entries (false, false) with
  | .error e => .error e
  | .ok fe => .ok (fe.1 && !fe.2)

/-- First client loop of `get_policies`: keep, in order, the policies
whose client list matches; exceptions abort the whole call. -/
def clientMatchFilter (c : String) : List Policy → Except PiError (List Policy)
  | [] => .ok []
  | p :: rest =>
      match clientListMatch p.client c with
      | .error e => .error e
      | .ok b =>
          match clientMatchFilter c rest with
          | .error e => .error e
          | .ok rs => .ok (if b then p :: rs else rs)

/-- The full client pass of `get_policies`: the matching policies
followed by every policy with an empty client list. -/
def clientFilterPass (v : Option String) (ps : List Policy) :
    Except PiError (List Policy) :=
  match v with
  | none => .ok ps
  | some c =>
      match clientMatchFilter c ps with
      | .error e => .error e
      | .ok matched => .ok (matched ++ ps.filter (fun p => p.client.isEmpty))

/-- Embedding of `PolicyClass.get_policies`: exact filters for `name`,
`active`, `scope`, then the list valued passes for `action`, `user`,
`resolver`, `realm`, then the client pass, in the order of the source. -/
def get_policies (ps : List Policy) (nameF scopeF realmF : Option String)
    (activeF : Option Bool) (resolverF userF clientF actionF : Option String) :
    Except PiError (List Policy) :=
  let r := exactFilterStr Policy.name nameF ps
  let r := exactFilterBool Policy.active activeF r
  let r := exactFilterStr Policy.scope scopeF r
  let r := listFilterPass actionKeys actionF r
  let r := listFilterPass Policy.user userF r
  let r := listFilterPass Policy.resolver resolverF r
  let r := listFilterPass Policy.realm realmF r
  clientFilterPass clientF r

/-- Token extraction of `get_action_values` for one policy: a value
that starts and ends with a single quote is kept whole with the outer
quotes stripped, anything else is split on whitespace. -/
def actionTokens (p : Policy) (a : String) : List String :=
  let v := (lookupAction p.action a).getD ""
  if pyStartsWith v squoteStr && pyEndsWith v squoteStr then [pyInnerStrip v]
  else pySplitWhitespace v

/-- Accumulation of the action value tokens over the matching policies,
in order, exactly as the loop in `get_action_values` builds
`action_values`. -/
def gatherValues (pols : List Policy) (a : String) : List String :=
  pols.foldl (fun acc p => acc ++ actionTokens p a) []

/-- Helper modelling `list(set(xs))` for strings: duplicates removed,
first occurrences kept.  The Python set iteration order is unspecified;
since `get_action_values` only ever returns a deduplicated list of
length at most one, the choice of order is unobservable. -/
def pyDedupAux : List String → List String → List String
  | [], _ => []
  | x :: xs, seen =>
      if seen.contains x then pyDedupAux xs seen
      else x :: pyDedupAux xs (x :: seen)

/-- Deduplication, modelling `list(set(action_values))`. -/
def pyDedup (l : List String) : List String := pyDedupAux l []

/-- Embedding of `PolicyClass.get_action_values`: match the active
policies of the scope for the requested action, gather the value
tokens, and with `unique` deduplicate and raise on more than one
distinct value. -/
def get_action_values (ps : List Policy) (a scope : String)
    (realmF resolverF userF clientF : Option String) (unique : Bool) :
    Except PiError (List String) :=
  match get_policies ps none (some scope) realmF (some true) resolverF userF clientF (some a) with
  | .error e => .error e
  | .ok pols =>
      let vals := gatherValues pols a
      if unique then
        let d := pyDedup vals
        if d.length > 1 then
          .error (.policyError ("There are conflicting " ++ a ++ " definitions!"))
        else .ok d
      else .ok vals

/-- Scope constant `SCOPE.ADMIN`. -/
def SCOPE_ADMIN : String := "admin"

/-- Scope constant `SCOPE.USER`. -/
def SCOPE_USER : String := "user"

/-- Scope constant `SCOPE.ENROLL`. -/
def SCOPE_ENROLL : String := "enrollment"

/-- Action constant `ACTION.MAXTOKENUSER`. -/
def ACTION_MAXTOKENUSER : String := "max_token_per_user"

/-- Action constant `ACTION.OTPPINMAXLEN`. -/
def ACTION_OTPPINMAXLEN : String := "otp_pin_maxlength"

/-- Action constant `ACTION.OTPPINMINLEN`. -/
def ACTION_OTPPINMINLEN : String := "otp_pin_minlength"

/-- Action constant `ACTION.OTPPINCONTENTS`. -/
def ACTION_OTPPINCONTENTS : String := "otp_pin_contents"

/-- Any character of `[a-zA-Z]`, the `chars` class of `check_otp_pin`. -/
def isPinAlpha (ch : Char) : Bool := ch.isAlpha

/-- Any character of `[0-9]`, the `digits` class of `check_otp_pin`. -/
def isPinDigit (ch : Char) : Bool := ch.isDigit

/-- The `special` character class of `check_otp_pin`.  Inside the
regular expression class the three characters semicolon, minus,
underscore form a range from code 59 to code 95; the remaining
characters are literals.  The section sign is kept as one character
here. -/
def isPinSpecial (ch : Char) : Bool :=
  ch == '.' || ch == ':' || ch == ',' ||
  (';' ≤ ch && ch ≤ '_') ||
  ch == '+' || ch == '*' || ch == '!' || ch == '/' || ch == '(' || ch == ')' ||
  ch == '$' || ch == '%' || ch == '&' || ch == '#' || ch == '~' || ch == '^' ||
  ch == '§'

/-- Minimum length branch of `check_otp_pin`: active only when exactly
one policy value was found. -/
def checkMinLen (polMinlen : List String) (pin : String) : Except PiError Unit :=
  match polMinlen with
  | [v] =>
      match pyInt v with
      | .error e => .error e
      | .ok m =>
          if (pin.data.length : Int) < m then
            .error (.policyError ("The minimum OTP PIN length is " ++ v))
          else .ok ()
  | _ => .ok ()

/-- Maximum length branch of `check_otp_pin`.  The error message of the
source interpolates `pol_minlen[0]`, so a maximum length violation with
no minimum length policy in place raises `IndexError` instead. -/
def checkMaxLen (polMaxlen polMinlen : List String) (pin : String) :
    Except PiError Unit :=
  match polMaxlen with
  | [v] =>
      match pyInt v with
      | .error e => .error e
      | .ok m =>
          if (pin.data.length : Int) > m then
            match polMinlen with
            | [] => .error .indexError
            | w :: _ => .error (.policyError ("The maximum OTP PIN length is " ++ w))
          else .ok ()
  | _ => .ok ()

/-- Contents branch of `check_otp_pin`, lines 169 to 189 of
`prepolicy.py`.  The source compares the list `pol_contents` item
`pol_contents[0]` against the whole strings `-` and `+` and, when equal,
slices the list (not the contents string); the `no_others` and
`grouping` flags it sets are never read (the source marks grouping and
subtraction as an unimplemented TODO).  Afterwards each of the flags
`c`, `n`, `s` contained anywhere in `pol_contents[0]` requires the
corresponding character class to appear in the PIN. -/
def pinContentsCheck (polContents : List String) (pin : String) :
    Except PiError Unit :=
  if polContents.length == 1 then
    let pc :=
      if polContents.headD "" == "-" then polContents.tail
      else if polContents.headD "" == "+" then polContents.tail
      else polContents
    match pc with
    | [] => .error .indexError
    | c0 :: _ =>
        if c0.data.contains 'c' && !(pin.data.any isPinAlpha) then
          .error (.policyError "Missing character in PIN: [a-zA-Z]")
        else if c0.data.contains 'n' && !(pin.data.any isPinDigit) then
          .error (.policyError "Missing character in PIN: [0-9]")
        else if c0.data.contains 's' && !(pin.data.any isPinSpecial) then
          .error (.policyError "Missing character in PIN: special")
        else .ok ()
  else .ok ()

/-- Embedding of `check_otp_pin` from `prepolicy.py`.  The request data
is abstracted to the logged in role, the user login and realm, the
request client address and the two PIN parameters (`otppin` and `pin`,
empty string when absent, combined with the Python `or`).  The whole
body runs only when the role is exactly `user`. -/
def check_otp_pin (ps : List Policy) (role login realm client : String)
    (otppinParam pinParam : String) : Except PiError Bool :=
  if role == "user" then
    let pin := if otppinParam != "" then otppinParam else pinParam
    match get_action_values ps ACTION_OTPPINMINLEN SCOPE_USER (some realm) none (some login) (some client) true with
    | .error e => .error e
    | .ok polMinlen =>
        match get_action_values ps ACTION_OTPPINMAXLEN SCOPE_USER (some realm) none (some login) (some client) true with
        | .error e => .error e
        | .ok polMaxlen =>
            match get_action_values ps ACTION_OTPPINCONTENTS SCOPE_USER (some realm) none (some login) (some client) true with
            | .error e => .error e
            | .ok polContents =>
                match checkMinLen polMinlen pin with
                | .error e => .error e
                | .ok _ =>
                    match checkMaxLen polMaxlen polMinlen pin with
                    | .error e => .error e
                    | .ok _ =>
                        match pinContentsCheck polContents pin with
                        | .error e => .error e
                        | .ok _ => .ok true
  else .ok true

/-- Lexicographic strict comparison of character lists, by code point,
modelling the Python 2 string comparison. -/
def pyStrLtChars : List Char → List Char → Bool
  | [], [] => false
  | [], _ :: _ => true
  | _ :: _, [] => false
  | a :: as, b :: bs =>
      if a.toNat < b.toNat then true
      else if b.toNat < a.toNat then false
      else pyStrLtChars as bs

/-- Python `a < b` on strings. -/
def pyStrLt (a b : String) : Bool := pyStrLtChars a.data b.data

/-- Python `max` over a nonempty list of strings, which compares
lexicographically: later items replace the current maximum only when
strictly greater. -/
def pyMaxStr (x : String) (xs : List String) : String :=
  xs.foldl (fun a b => if pyStrLt a b then b else a) x

/-- Embedding of `check_max_token_user` from `prepolicy.py`: when the
user login is nonempty, fetch the `max_token_per_user` values (not
unique), and when any were found compare the current assigned token
count against `int(max(limit_list))` where `max` is the lexicographic
string maximum. -/
def check_max_token_user (ps : List Policy) (login realm client : String)
    (assignedTokens : Nat) : Except PiError Bool :=
  if login != "" then
    match get_action_values ps ACTION_MAXTOKENUSER SCOPE_ENROLL (some realm) none (some login) (some client) false with
    | .error e => .error e
    | .ok limitList =>
        match limitList with
        | [] => .ok true
        | x :: xs =>
            match pyInt (pyMaxStr x xs) with
            | .error e => .error e
            | .ok m =>
                if (assignedTokens : Int) ≥ m then
                  .error (.policyError "The number of tokens for this user is limited!")
                else .ok true
  else .ok true

/-- Parameter names of the `get_policies` signature in `policy.py`
(line 207), besides `self`. -/
def getPoliciesParamNames : List String :=
  ["name", "scope", "realm", "active", "resolver", "user", "client", "action"]

/-- Keyword names used at the `get_policies` call inside
`check_base_action` (lines 401 to 407 of `prepolicy.py`). -/
def checkBaseActionCallKeywords : List String :=
  ["action", "user", "realm", "scope", "client", "adminrealm", "active"]

/-- Python keyword argument acceptance: every keyword of the call must
name a parameter of the callee, otherwise the call raises `TypeError`
before the body runs. -/
def kwargsAccepted (paramNames callKeywords : List String) : Bool :=
  callKeywords.all (fun k => paramNames.contains k)

/-- Embedding of `check_base_action` from `prepolicy.py`.  The realm is
taken as an input (the source may derive it from a token serial through
an external lookup).  The first `get_policies` call passes the keyword
`adminrealm`, which the `get_policies` signature does not accept, so
Python raises `TypeError` at that call; the remainder models the body
after that call site. -/
def check_base_action (ps : List Policy) (username role _adminRealm : String)
    (realmParam : Option String) (actionName client : String) :
    Except PiError Bool :=
  let scope := if role == "user" then SCOPE_USER else SCOPE_ADMIN
  if !kwargsAccepted getPoliciesParamNames checkBaseActionCallKeywords then
    .error (.typeError "get_policies got an unexpected keyword argument adminrealm")
  else
    match get_policies ps none (some scope) realmParam (some true) none (some username) (some client) (some actionName) with
    | .error e => .error e
    | .ok matching =>
        match get_policies ps none (some scope) none (some true) none none none none with
        | .error e => .error e
        | .ok atAll =>
            if atAll.length != 0 && matching.length == 0 then
              .error (.policyError (if role == "user" then
                "User actions are defined, but this action is not allowed!"
              else
                "Admin actions are defined, but this action is not allowed!"))
            else .ok true

/-- Left brace character, written by code point. -/
def lbrace : Char := Char.ofNat 123

/-- Right brace character, written by code point. -/
def rbrace : Char := Char.ofNat 125

/-- Python values occurring in a loaded policy dictionary: plain
strings, booleans, lists of strings, and the action dictionary. -/
inductive PyVal where
  | str (s : String)
  | boolean (b : Bool)
  | strList (l : List String)
  | strDict (d : List (String × PyVal))

/-- Python `repr` of a plain string without embedded quotes, as it
appears inside the `str()` form of a list or dictionary. -/
def pyReprStr (s : String) : String := squoteStr ++ s ++ squoteStr

/-- Representation of a dictionary value inside `str(dict)`: strings
are quoted, booleans print as `True` and `False`.  Nested containers do
not occur in policy rows. -/
def pyDictValStr : PyVal → String
  | .str s => pyReprStr s
  | .boolean b => if b then "True" else "False"
  | _ => ""

/-- Python `"%s" % value` for the values written by `export_policies`:
strings print unchanged, booleans as `True` and `False`, lists and
dictionaries in their literal textual representation. -/
def pyValStr : PyVal → String
  | .str s => s
  | .boolean b => if b then "True" else "False"
  | .strList l => "[" ++ String.intercalate ", " (l.map pyReprStr) ++ "]"
  | .strDict d =>
      ⟨[lbrace]⟩ ++
        String.intercalate ", "
          (d.map (fun kv => pyReprStr kv.1 ++ ": " ++ pyDictValStr kv.2)) ++
      ⟨[rbrace]⟩

/-- Modelled from the spec: the dictionary returned by `models.Policy.get`
for one policy row (`models.py` is not part of the sources).  Following
the data model section of the spec, it carries the name, the single
scope, the action mapping, the pattern lists and the active flag, in
this fixed key order; the optional `time` field is not exercised and is
omitted. -/
def policyToDict (p : Policy) : List (String × PyVal) :=
  [("name", .str p.name),
   ("scope", .str p.scope),
   ("action", .strDict (p.action.map (fun kv => (kv.1, .str kv.2)))),
   ("realm", .strList p.realm),
   ("resolver", .strList p.resolver),
   ("user", .strList p.user),
   ("client", .strList p.client),
   ("active", .boolean p.active)]

/-- Lookup in an association list of strings, modelling `dict.get`. -/
def lookupKV (l : List (String × String)) (k : String) : Option String :=
  (l.find? (fun kv => kv.1 == k)).map Prod.snd

/-- Embedding of `export_policies` from `policy.py`: one section per
policy, the header from the `name` entry, then one `key = value` line
per dictionary item, then a blank line. -/
def export_policies (ps : List Policy) : String :=
  ps.foldl (fun acc p =>
    let d := policyToDict p
    acc ++ "[" ++
      (match d.find? (fun kv => kv.1 == "name") with
       | some kv => pyValStr kv.2
       | none => "None") ++ "]\n" ++
      d.foldl (fun acc2 kv => acc2 ++ kv.1 ++ " = " ++ pyValStr kv.2 ++ "\n") "" ++
      "\n") ""

/-- Recognize a `[section]` line and return the section name. -/
def iniSectionName (t : String) : Option String :=
  match t.data with
  | '[' :: rest => if rest.getLast? == some ']' then some ⟨rest.dropLast⟩ else none
  | _ => none

/-- Parse one `key = value` line: split at the first equals sign and
strip both sides.  Values containing commas would be turned into lists
by the real ConfigObj; the exported single policy values used here are
comma free strings. -/
def parseKVLine (t : String) : Option (String × String) :=
  let k := t.data.takeWhile (fun c => c ≠ '=')
  match t.data.dropWhile (fun c => c ≠ '=') with
  | '=' :: v =>
      if (stripChars k).isEmpty then none
      else some (⟨stripChars k⟩, ⟨stripChars v⟩)
  | _ => none

/-- Modelled from the spec: the ConfigObj parse of the INI-like export
text (ConfigObj is an external library).  Lines are walked once; a
bracketed line opens a section, other nonempty lines contribute
`key = value` pairs to the current section. -/
def parseIniAux : List String → Option (String × List (String × String)) →
    List (String × List (String × String))
  | [], cur =>
      (match cur with
       | none => []
       | some st => [(st.1, st.2.reverse)])
  | line :: rest, cur =>
      let t := stripStr line
      match iniSectionName t with
      | some sec =>
          (match cur with
           | none => parseIniAux rest (some (sec, []))
           | some st => (st.1, st.2.reverse) :: parseIniAux rest (some (sec, [])))
      | none =>
          match parseKVLine t with
          | some kv =>
              (match cur with
               | none => parseIniAux rest none
               | some st => parseIniAux rest (some (st.1, kv :: st.2)))
          | none => parseIniAux rest cur

/-- Sectioned view of an exported file. -/
def parseIni (lines : List String) : List (String × List (String × String)) :=
  parseIniAux lines none

/-- Parse a single quoted string at the head of the input, returning
the contents and the rest. -/
def parseQuoted (cs : List Char) : Option (String × List Char) :=
  match cs with
  | c :: rest =>
      if c == squote then
        let content := rest.takeWhile (fun ch => ch ≠ squote)
        match rest.dropWhile (fun ch => ch ≠ squote) with
        | c2 :: rem => if c2 == squote then some (⟨content⟩, rem) else none
        | [] => none
      else none
  | [] => none

/-- Parse the items of a Python list literal after the opening bracket;
the fuel argument bounds the recursion. -/
def parseListItemsAux : Nat → List Char → List String → Option (List String × List Char)
  | 0, _, _ => none
  | n + 1, cs, acc =>
      let cs2 := cs.dropWhile (fun c => c == ' ')
      match cs2 with
      | ']' :: rest => some (acc.reverse, rest)
      | _ =>
          match parseQuoted cs2 with
          | some (s, rem) =>
              let rem2 := rem.dropWhile (fun c => c == ' ')
              match rem2 with
              | ',' :: rem3 => parseListItemsAux n rem3 (s :: acc)
              | ']' :: rem3 => some ((s :: acc).reverse, rem3)
              | _ => none
          | none => none

/-- Parse one dictionary value: a quoted string or a boolean literal. -/
def parseDictVal (cs : List Char) : Option (PyVal × List Char) :=
  match parseQuoted cs with
  | some (s, rem) => some (.str s, rem)
  | none =>
      if cs.take 4 == "True".data then some (.boolean true, cs.drop 4)
      else if cs.take 5 == "False".data then some (.boolean false, cs.drop 5)
      else none

/-- Parse the items of a Python dictionary literal after the opening
brace; the fuel argument bounds the recursion. -/
def parseDictItemsAux : Nat → List Char → List (String × PyVal) →
    Option (List (String × PyVal) × List Char)
  | 0, _, _ => none
  | n + 1, cs, acc =>
      let cs2 := cs.dropWhile (fun c => c == ' ')
      match cs2 with
      | c :: rest =>
          if c == rbrace then some (acc.reverse, rest)
          else
            (match parseQuoted cs2 with
             | some (k, rem) =>
                 let rem2 := rem.dropWhile (fun ch => ch == ' ')
                 (match rem2 with
                  | ':' :: rem3 =>
                      (match parseDictVal (rem3.dropWhile (fun ch => ch == ' ')) with
                       | some (v, rem4) =>
                           let rem5 := rem4.dropWhile (fun ch => ch == ' ')
                           (match rem5 with
                            | ',' :: rem6 => parseDictItemsAux n rem6 ((k, v) :: acc)
                            | c2 :: rem6 =>
                                if c2 == rbrace then some (((k, v) :: acc).reverse, rem6)
                                else none
                            | [] => none)
                       | none => none)
                  | _ => none)
             | none => none)
      | [] => none

/-- Modelled from the spec: Python `eval` restricted to the literal
forms that `export_policies` emits for policy fields, that is list
literals of quoted strings, dictionary literals with quoted keys and
quoted string or boolean values, and the two boolean constants. -/
def pyEvalVal (s : String) : Option PyVal :=
  let cs := stripChars s.data
  match cs with
  | c :: rest =>
      if c == '[' then
        (parseListItemsAux (rest.length + 1) rest []).map (fun r => .strList r.1)
      else if c == lbrace then
        (parseDictItemsAux (rest.length + 1) rest []).map (fun r => .strDict r.1)
      else if cs == "True".data then some (.boolean true)
      else if cs == "False".data then some (.boolean false)
      else none
  | [] => none

/-- The stored database row of a policy.  Modelled from the spec: the
`models.Policy` constructor keeps the joined strings produced by
`set_policy` (`models.py` is not part of the sources). -/
structure PolicyRow where
  name : String
  scope : String
  action : String
  realm : String
  resolver : String
  user : String
  client : String
  active : Bool
deriving DecidableEq

/-- Conversion of a `set_policy` argument to the stored column string,
following lines 373 to 392 of `policy.py`: a dictionary becomes a comma
separated list of `key=value` items (a bare key when the value is the
boolean True), a list is joined with comma and space, a plain string is
stored unchanged. -/
def setPolicyFieldStr : PyVal → String
  | .str s => s
  | .boolean b => if b then "True" else "False"
  | .strList l => String.intercalate ", " l
  | .strDict d =>
      String.intercalate ", "
        (d.map (fun kv =>
          match kv.2 with
          | .boolean true => kv.1
          | .str s => kv.1 ++ "=" ++ s
          | v => kv.1 ++ "=" ++ pyValStr v))

/-- Embedding of `set_policy` as called by `import_policies`: the
caller supplies name, action, scope, realm, user, resolver, client; the
`active` parameter is not passed, so its default `True` applies. -/
def set_policy_row (nm : String) (actionV : PyVal) (scopeV : String)
    (realmV userV resolverV clientV : PyVal) : PolicyRow :=
  { name := nm
    scope := scopeV
    action := setPolicyFieldStr actionV
    realm := setPolicyFieldStr realmV
    resolver := setPolicyFieldStr resolverV
    user := setPolicyFieldStr userV
    client := setPolicyFieldStr clientV
    active := true }

/-- Split a stored comma separated column back into a stripped list,
with the empty column giving the empty list. -/
def splitCommaList (s : String) : List String :=
  if (stripChars s.data).isEmpty then []
  else (pySplitOnChar s ',').map stripStr

/-- Parse one stored action item `key=value`; a bare key would denote a
boolean flag, which lies outside the string valued subset modelled by
`Policy`, so it is rejected rather than misrepresented. -/
def parseActionEntry (it : String) : Option (String × String) :=
  let k := it.data.takeWhile (fun c => c ≠ '=')
  match it.data.dropWhile (fun c => c ≠ '=') with
  | '=' :: v => some (⟨k⟩, ⟨v⟩)
  | _ => none

/-- Modelled from the spec: `models.Policy.get` parsing the stored
columns back into the in-memory policy dictionary, splitting the comma
separated lists and the `key=value` action items (the export text must
round-trip through the same parser used for live policy rows). -/
def rowToPolicy (r : PolicyRow) : Option Policy := do
  let actionPairs ← (splitCommaList r.action).mapM parseActionEntry
  pure
    { name := r.name
      scope := r.scope
      action := actionPairs
      realm := splitCommaList r.realm
      resolver := splitCommaList r.resolver
      user := splitCommaList r.user
      client := splitCommaList r.client
      active := r.active }

/-- Embedding of the body of `import_policies` for one parsed section:
`action` is fetched and passed through `eval` (a missing key would make
`eval(None)` raise), the list fields default to the empty list literal,
and `set_policy` is called without the `active` argument. -/
def importOneSection (sec : String × List (String × String)) : Option PolicyRow := do
  let actionStr ← lookupKV sec.2 "action"
  let actionV ← pyEvalVal actionStr
  let scopeV ← lookupKV sec.2 "scope"
  let realmV ← pyEvalVal ((lookupKV sec.2 "realm").getD "[]")
  let userV ← pyEvalVal ((lookupKV sec.2 "user").getD "[]")
  let resolverV ← pyEvalVal ((lookupKV sec.2 "resolver").getD "[]")
  let clientV ← pyEvalVal ((lookupKV sec.2 "client").getD "[]")
  pure (set_policy_row sec.1 actionV scopeV realmV userV resolverV clientV)

/-- The export and re-import round trip: export the policies to text,
split the text into lines, parse the sections, run the import body on
each section, and read the stored rows back as in-memory policies. -/
def roundTripPolicies (ps : List Policy) : Option (List Policy) := do
  let text := export_policies ps
  let sections := parseIni (pySplitOnChar text '\n')
  let rows ← sections.mapM importOneSection
  rows.mapM rowToPolicy

/-- Policy with the user list of the spec example: any user except
`admin`. -/
def p7 : Policy := ⟨"polUser", "admin", [], [], [], ["*", "-admin"], [], true⟩

/-- Policy whose user list is empty, loaded before `p2b`. -/
def p2a : Policy := ⟨"polA", "admin", [], [], [], [], [], true⟩

/-- Policy whose user list names `alice`, loaded after `p2a`. -/
def p2b : Policy := ⟨"polB", "admin", [], [], [], ["alice"], [], true⟩

/-- Policy with the client list of the spec example: the `10.0.0.0/8`
network minus the single address `10.0.0.1`. -/
def p8 : Policy := ⟨"polClient", "authorization", [], [], [], [], ["10.0.0.0/8", "-10.0.0.1"], true⟩

/-- Policy with an empty client list, used for the automatic client
match. -/
def p8e : Policy := ⟨"polNoClient", "authorization", [], [], [], [], [], true⟩

/-- Active authorization policy setting `tokentype` to `hotp`. -/
def q1 : Policy := ⟨"polHotp", "authorization", [("tokentype", "hotp")], [], [], [], [], true⟩

/-- Active authorization policy setting `tokentype` to `totp`,
conflicting with `q1`. -/
def q2 : Policy := ⟨"polTotp", "authorization", [("tokentype", "totp")], [], [], [], [], true⟩

/-- Policy carrying a quoted action value with inner whitespace. -/
def pq : Policy :=
  ⟨"polSms", "authentication",
   [("smstext", squoteStr ++ "your otp" ++ squoteStr)], [], [], [], [], true⟩

/-- Policy carrying an unquoted action value with whitespace. -/
def pt : Policy := ⟨"polTok", "authorization", [("tokentype", "totp hotp")], [], [], [], [], true⟩

/-- User scope policy with the PIN contents value `-c`. -/
def p6 : Policy := ⟨"polPin", "user", [("otp_pin_contents", "-c")], [], [], [], [], true⟩

/-- Enrollment policy limiting the user to nine tokens. -/
def pe9 : Policy := ⟨"polLim9", "enrollment", [("max_token_per_user", "9")], [], [], [], [], true⟩

/-- Enrollment policy limiting the user to ten tokens. -/
def pe10 : Policy := ⟨"polLim10", "enrollment", [("max_token_per_user", "10")], [], [], [], [], true⟩

/-- Inactive authentication policy used for the export and import round
trip. -/
def pol5 : Policy := ⟨"imp1", "authentication", [("otppin", "userstore")], [], [], [], [], false⟩

/-- Closed form of the value loop: the accumulated flags are the
initial flags joined with, respectively, a positive entry that is not
itself an exclusion of the searched value, and any exclusion entry. -/
theorem scanValues_spec (x : String) (vals : List String) (f e : Bool) :
    scanValues x vals (f, e) =
      (f || vals.any (fun v => !exclEntry x v && posEntry x v),
       e || vals.any (fun v => exclEntry x v)) := by
  induction vals generalizing f e with
  | nil => simp [scanValues]
  | cons v rest ih =>
      cases h1 : exclEntry x v with
      | true => simp [scanValues, scanStep, h1, ih]
      | false =>
          cases h2 : posEntry x v with
          | true => simp [scanValues, scanStep, h1, h2, ih]
          | false => simp [scanValues, scanStep, h1, h2, ih]

/-- The per policy list decision in terms of entry predicates. -/
theorem listMatch_eq (values : List String) (x : String) :
    listMatch values x =
      (values.any (fun v => !exclEntry x v && posEntry x v) &&
       !values.any (fun v => exclEntry x v)) := by
  simp [listMatch, scanValues_spec]

/-- Every exact filter pass yields an order preserving sublist. -/
theorem exactFilterStr_sublist (g : Policy → String) (v : Option String)
    (ps : List Policy) : (exactFilterStr g v ps).Sublist ps := by
  cases v with
  | none => exact List.Sublist.refl ps
  | some x => exact List.filter_sublist ps

/-- The boolean exact filter pass yields an order preserving sublist. -/
theorem exactFilterBool_sublist (g : Policy → Bool) (v : Option Bool)
    (ps : List Policy) : (exactFilterBool g v ps).Sublist ps := by
  cases v with
  | none => exact List.Sublist.refl ps
  | some x => exact List.filter_sublist ps

/-- C7: a policy whose user list is `["*", "-admin"]` matches the user
`alice` but not the user `admin`; in general, over the list valued
dimensions a positive match can only come from an entry that equals the
searched value or the wildcard and is not an exclusion of it, while any
exclusion entry for the searched value vetoes the whole policy. -/
theorem c7_exclusion_semantics :
    (get_policies [p7] none none none none none (some "alice") none none = .ok [p7]
      ∧ get_policies [p7] none none none none none (some "admin") none none = .ok [])
    ∧ (∀ (values : List String) (x : String), listMatch values x = true →
        ∃ v ∈ values, (v = x ∨ v = "*") ∧ exclEntry x v = false)
    ∧ (∀ (values : List String) (x v : String), v ∈ values →
        exclEntry x v = true → listMatch values x = false) := by
  refine ⟨⟨rfl, rfl⟩, ?_, ?_⟩
  · intro values x h
    rw [listMatch_eq] at h
    obtain ⟨h1, h2⟩ := Bool.and_eq_true_iff.mp h
    obtain ⟨v, hv, hP⟩ := List.any_eq_true.mp h1
    obtain ⟨hne, hpos⟩ := Bool.and_eq_true_iff.mp hP
    refine ⟨v, hv, ?_, ?_⟩
    · simpa [posEntry] using hpos
    · simpa using hne
  · intro values x v hv hx
    rw [listMatch_eq]
    have : values.any (fun v => exclEntry x v) = true :=
      List.any_eq_true.mpr ⟨v, hv, hx⟩
    simp [this]

/-- C7 witness: the general statements applied to the concrete list of
the spec example. -/
theorem c7_witness :
    (∃ v ∈ ["*", "-admin"], (v = "alice" ∨ v = "*") ∧ exclEntry "alice" v = false)
    ∧ listMatch ["*", "-admin"] "admin" = false :=
  ⟨c7_exclusion_semantics.2.1 ["*", "-admin"] "alice" (by decide),
   c7_exclusion_semantics.2.2 ["*", "-admin"] "admin" "-admin" (by decide) (by decide)⟩

/-- C2 counterexample: with the loaded order `[p2a, p2b]`, where `p2a`
has an empty user list and `p2b` names `alice`, filtering by the user
`alice` returns `[p2b, p2a]`, which is not an order preserving sublist
of the loaded list: the policy with the empty user list is appended
after the explicitly matching one. -/
theorem c2_counterexample :
    get_policies [p2a, p2b] none none none none none (some "alice") none none
      = .ok [p2b, p2a]
    ∧ p2a ≠ p2b
    ∧ ¬ List.Sublist [p2b, p2a] [p2a, p2b] := by
  refine ⟨rfl, by decide, ?_⟩
  intro h
  have heq := h.eq_of_length (by simp)
  simp only [List.cons.injEq] at heq
  exact absurd heq.1 (by decide)

/-- C2 amended: with no filters the loaded order is returned unchanged;
with only the exact filters (`name`, `active`, `scope`) the output is
an order preserving sublist of the load; each list valued pass instead
returns the explicitly matching policies followed by the policies with
an empty pattern list, each of the two groups separately preserving the
loaded order. -/
theorem c2_amended_order :
    (∀ ps : List Policy,
        get_policies ps none none none none none none none none = .ok ps)
    ∧ (∀ (ps : List Policy) (n s : Option String) (a : Option Bool),
        ∃ l, get_policies ps n s none a none none none none = .ok l
          ∧ l.Sublist ps)
    ∧ (∀ (get : Policy → List String) (x : String) (ps : List Policy),
        listFilterPass get (some x) ps =
          ps.filter (fun p => listMatch (get p) x)
            ++ ps.filter (fun p => (get p).isEmpty)
        ∧ (ps.filter (fun p => listMatch (get p) x)).Sublist ps
        ∧ (ps.filter (fun p => (get p).isEmpty)).Sublist ps) := by
  refine ⟨fun ps => rfl, ?_, ?_⟩
  · intro ps n s a
    refine ⟨_, rfl, ?_⟩
    exact ((exactFilterStr_sublist Policy.scope s _).trans
      (exactFilterBool_sublist Policy.active a _)).trans
      (exactFilterStr_sublist Policy.name n ps)
  · intro get x ps
    exact ⟨rfl, List.filter_sublist ps, List.filter_sublist ps⟩

/-- One successful client loop step updates the found flag with a
containing non exclusion entry and the excluded flag with a containing
exclusion entry. -/
theorem clientScanStep_ok (c e : String) (f0 e0 : Bool) (fe : Bool × Bool)
    (h : clientScanStep c (f0, e0) e = .ok fe) :
    fe = (f0 || clientInc c e, e0 || clientExc c e) := by
  unfold clientScanStep at h
  unfold clientInc clientExc netContains
  cases hemp : e.data.isEmpty with
  | true => rw [hemp] at h; simp at h
  | false =>
      rw [hemp] at h
      simp only [Bool.false_eq_true, if_false] at h
      cases hneg : leadNeg e with
      | true =>
          rw [hneg] at h
          simp only [if_true] at h
          cases hpc : parseIPv4 c with
          | none => rw [hpc] at h; simp at h
          | some a =>
              rw [hpc] at h
              cases hpn : parseIPNetwork (pyDrop1 e) with
              | none => rw [hpn] at h; simp at h
              | some n =>
                  rw [hpn] at h
                  simp only [Except.ok.injEq] at h
                  subst h
                  cases hin : inIPNetwork a n <;> simp [hneg, hin, hpc, hpn]
      | false =>
          rw [hneg] at h
          simp only [Bool.false_eq_true, if_false] at h
          cases hpc : parseIPv4 c with
          | none => rw [hpc] at h; simp at h
          | some a =>
              rw [hpc] at h
              cases hpn : parseIPNetwork e with
              | none => rw [hpn] at h; simp at h
              | some n =>
                  rw [hpn] at h
                  simp only [Except.ok.injEq] at h
                  subst h
                  cases hin : inIPNetwork a n <;> simp [hneg, hin, hpc, hpn]

/-- Closed form of a successful client loop: the final flags are the
initial flags joined with the existence of a containing non exclusion
entry and of a containing exclusion entry. -/
theorem clientScan_spec (c : String) (entries : List String) (f0 e0 : Bool)
    (fe : Bool × Bool) (h : clientScan c entries (f0, e0) = .ok fe) :
    fe = (f0 || entries.any (fun e => clientInc c e),
          e0 || entries.any (fun e => clientExc c e)) := by
  induction entries generalizing f0 e0 with
  | nil =>
      simp only [clientScan, Except.ok.injEq] at h
      simp [← h]
  | cons e rest ih =>
      unfold clientScan at h
      cases hs : clientScanStep c (f0, e0) e with
      | error err => rw [hs] at h; simp at h
      | ok fe2 =>
          rw [hs] at h
          have h2 := clientScanStep_ok c e f0 e0 fe2 hs
          rw [h2] at h
          have h3 := ih (f0 || clientInc c e) (e0 || clientExc c e) h
          rw [h3]
          simp [Bool.or_assoc]

/-- C8: a policy whose client list is `["10.0.0.0/8", "-10.0.0.1"]`
matches the requesting client `10.0.0.5` but not `10.0.0.1`; a policy
with an empty client list passes the client filter for every requested
client; and in general the client decision is true exactly when the
requested address lies, by network containment, inside at least one non
exclusion entry and inside no exclusion entry. -/
theorem c8_client_matching :
    (get_policies [p8] none none none none none none (some "10.0.0.5") none = .ok [p8]
      ∧ get_policies [p8] none none none none none none (some "10.0.0.1") none = .ok [])
    ∧ (∀ (p : Policy) (c : String), p.client = [] →
        clientFilterPass (some c) [p] = .ok [p])
    ∧ (∀ (entries : List String) (c : String) (b : Bool),
        clientListMatch entries c = .ok b →
        (b = true ↔ (∃ e ∈ entries, clientInc c e = true)
          ∧ ∀ e ∈ entries, clientExc c e = false)) := by
  refine ⟨⟨rfl, rfl⟩, ?_, ?_⟩
  · intro p c h
    simp [clientFilterPass, clientMatchFilter, clientListMatch, clientScan, h]
  · intro entries c b h
    unfold clientListMatch at h
    cases hs : clientScan c entries (false, false) with
    | error err => rw [hs] at h; simp at h
    | ok fe =>
        rw [hs] at h
        have h2 := clientScan_spec c entries false false fe hs
        simp only [Except.ok.injEq] at h
        rw [h2] at h
        rw [← h]
        simp only [Bool.false_or, Bool.and_eq_true, Bool.not_eq_true']
        rw [List.any_eq_true, List.any_eq_false]
        simp [Bool.not_eq_true]

/-- C8 witness: the empty client list part at a concrete policy and the
characterization at a concrete entry list. -/
theorem c8_witness :
    clientFilterPass (some "1.2.3.4") [p8e] = .ok [p8e]
    ∧ (true = true ↔ (∃ e ∈ ["10.0.0.0/8"], clientInc "10.0.0.5" e = true)
        ∧ ∀ e ∈ ["10.0.0.0/8"], clientExc "10.0.0.5" e = false) :=
  ⟨c8_client_matching.2.1 p8e "1.2.3.4" rfl,
   c8_client_matching.2.2 ["10.0.0.0/8"] "10.0.0.5" true rfl⟩

/-- C1: with `unique` set, `get_action_values` raises a policy error
whenever the values gathered across the matching active policies
contain, after deduplication, more than one distinct entry, and returns
the one element list when exactly one distinct value remains. -/
theorem c1_unique_semantics (ps : List Policy) (a scope : String)
    (realmF resolverF userF clientF : Option String) (pols : List Policy)
    (h : get_policies ps none (some scope) realmF (some true) resolverF userF clientF (some a) = .ok pols) :
    (1 < (pyDedup (gatherValues pols a)).length →
        get_action_values ps a scope realmF resolverF userF clientF true =
          .error (.policyError ("There are conflicting " ++ a ++ " definitions!")))
    ∧ (∀ v, pyDedup (gatherValues pols a) = [v] →
        get_action_values ps a scope realmF resolverF userF clientF true = .ok [v]) := by
  constructor
  · intro hlen
    unfold get_action_values
    rw [h]
    simp [hlen]
  · intro v hv
    unfold get_action_values
    rw [h]
    simp [hv]

/-- C1 witness: two active authorization policies with conflicting
`tokentype` values raise, a single one returns its value. -/
theorem c1_witness :
    get_action_values [q1, q2] "tokentype" "authorization" none none none none true
      = .error (.policyError ("There are conflicting " ++ "tokentype" ++ " definitions!"))
    ∧ get_action_values [q1] "tokentype" "authorization" none none none none true
      = .ok ["hotp"] :=
  ⟨(c1_unique_semantics [q1, q2] "tokentype" "authorization" none none none none
      [q1, q2] rfl).1 (by decide),
   (c1_unique_semantics [q1] "tokentype" "authorization" none none none none
      [q1] rfl).2 "hotp" (by decide)⟩

/-- The gathered value list is the concatenation of the per policy
token lists, in policy order. -/
theorem gatherValues_eq (pols : List Policy) (a : String) :
    gatherValues pols a = (pols.map (fun p => actionTokens p a)).flatten := by
  have aux : ∀ (l : List Policy) (init : List String),
      l.foldl (fun acc p => acc ++ actionTokens p a) init
        = init ++ (l.map (fun p => actionTokens p a)).flatten := by
    intro l
    induction l with
    | nil => intro init; simp
    | cons p rest ih => intro init; simp [List.foldl_cons, ih]
  simpa using aux pols []

/-- C9: for every policy the stored action value is appended as one
atomic string with the outer quotes stripped when it starts and ends
with a single quote, and otherwise is split on whitespace into all its
tokens; without `unique` the returned list is the plain concatenation
over the matching policies, with no deduplication. -/
theorem c9_value_tokenization :
    (∀ (p : Policy) (a v : String), lookupAction p.action a = some v →
        (pyStartsWith v squoteStr && pyEndsWith v squoteStr) = true →
        actionTokens p a = [pyInnerStrip v])
    ∧ (∀ (p : Policy) (a v : String), lookupAction p.action a = some v →
        (pyStartsWith v squoteStr && pyEndsWith v squoteStr) = false →
        actionTokens p a = pySplitWhitespace v)
    ∧ (∀ (ps : List Policy) (a scope : String)
        (realmF resolverF userF clientF : Option String) (pols : List Policy),
        get_policies ps none (some scope) realmF (some true) resolverF userF clientF (some a) = .ok pols →
        get_action_values ps a scope realmF resolverF userF clientF false =
          .ok ((pols.map (fun p => actionTokens p a)).flatten)) := by
  refine ⟨?_, ?_, ?_⟩
  · intro p a v hl hq
    unfold actionTokens
    rw [hl]
    simp [hq]
  · intro p a v hl hq
    unfold actionTokens
    rw [hl]
    simp [hq]
  · intro ps a scope realmF resolverF userF clientF pols h
    unfold get_action_values
    rw [h]
    simp [gatherValues_eq]

/-- C9 witness: a quoted value stays one token, an unquoted value is
split, and the non unique call returns the concatenation. -/
theorem c9_witness :
    actionTokens pq "smstext" = [pyInnerStrip (squoteStr ++ "your otp" ++ squoteStr)]
    ∧ actionTokens pt "tokentype" = pySplitWhitespace "totp hotp"
    ∧ get_action_values [pt] "tokentype" "authorization" none none none none false =
        .ok (([pt].map (fun p => actionTokens p "tokentype")).flatten) :=
  ⟨c9_value_tokenization.1 pq "smstext" (squoteStr ++ "your otp" ++ squoteStr) rfl rfl,
   c9_value_tokenization.2.1 pt "tokentype" "totp hotp" rfl rfl,
   c9_value_tokenization.2.2 [pt] "tokentype" "authorization" none none none none [pt] rfl⟩

/-- C10: `check_otp_pin` returns True without raising for every logged
in role other than `user`, for every policy list and every request, so
no policy is consulted and the request is unchanged. -/
theorem c10_role_gate (ps : List Policy)
    (role login realm client otppinParam pinParam : String) (h : role ≠ "user") :
    check_otp_pin ps role login realm client otppinParam pinParam = .ok true := by
  unfold check_otp_pin
  have hb : (role == "user") = false := by simpa using h
  rw [hb]
  simp

/-- C10 witness: an admin role request with policies loaded. -/
theorem c10_witness :
    check_otp_pin [p6] "admin" "cornelius" "realm1" "10.0.0.1" "" "x" = .ok true :=
  c10_role_gate [p6] "admin" "cornelius" "realm1" "10.0.0.1" "" "x" (by decide)

/-- C6 counterexample: with the contents policy value `-c` the claim
reads the leading minus as subtractive, so the PIN `1234`, which
contains no alphabetic character, should be accepted; the code instead
requires an alphabetic character and raises, because the minus prefix
is only compared against the whole value and the flag scan still sees
`c` inside `-c`. -/
theorem c6_counterexample :
    check_otp_pin [p6] "user" "cornelius" "realm1" "10.0.0.1" "" "1234"
      = .error (.policyError "Missing character in PIN: [a-zA-Z]")
    ∧ "1234".data.any isPinAlpha = false :=
  ⟨rfl, rfl⟩

/-- C6 amended: the prefix handling of the contents check compares the
whole contents value against `-` and `+`, so unless the value is
exactly one of those two strings (in which case the subsequent indexing
of the emptied list raises an index error) no subtraction or grouping
happens at all, and every flag `c`, `n`, `s` occurring anywhere in the
value, including after a leading minus, requires the PIN to contain the
corresponding character class, a violation raising a policy error. -/
theorem c6_amended_contents (contents pin : String)
    (h1 : contents ≠ "-") (h2 : contents ≠ "+") :
    (pinContentsCheck [contents] pin = .ok () ↔
      ((contents.data.contains 'c' = true → pin.data.any isPinAlpha = true)
        ∧ (contents.data.contains 'n' = true → pin.data.any isPinDigit = true)
        ∧ (contents.data.contains 's' = true → pin.data.any isPinSpecial = true)))
    ∧ pinContentsCheck ["-"] pin = .error .indexError
    ∧ pinContentsCheck ["+"] pin = .error .indexError := by
  have e1 : (contents == "-") = false := by simpa using h1
  have e2 : (contents == "+") = false := by simpa using h2
  refine ⟨?_, rfl, rfl⟩
  unfold pinContentsCheck
  simp only [List.length_cons, List.length_nil, List.headD, e1, e2,
    Bool.false_eq_true, if_false]
  cases hA : contents.data.contains 'c' <;>
    cases hB : contents.data.contains 'n' <;>
    cases hC : contents.data.contains 's' <;>
    cases hX : pin.data.any isPinAlpha <;>
    cases hY : pin.data.any isPinDigit <;>
    cases hZ : pin.data.any isPinSpecial <;>
    simp_all

/-- C6 amended witness: the index error branch of the amended theorem
applied at a concrete contents value and PIN. -/
theorem c6_amended_witness :
    pinContentsCheck ["-"] "x" = .error PiError.indexError :=
  (c6_amended_contents "-c" "x" (by decide) (by decide)).2.1

/-- C3: even with no policy loaded at all, where the claim expects the
base action check to default allow, `check_base_action` raises a
`TypeError`, because its `get_policies` call passes the keyword
`adminrealm` that the `get_policies` signature does not accept. -/
theorem c3_adminrealm_typeerror :
    check_base_action [] "admin" "admin" "realmA" none "enable" "10.0.0.1"
      = .error (.typeError "get_policies got an unexpected keyword argument adminrealm")
    ∧ getPoliciesParamNames.contains "adminrealm" = false
    ∧ checkBaseActionCallKeywords.contains "adminrealm" = true :=
  ⟨rfl, rfl, rfl⟩

/-- C4: with two matching limits `9` and `10` and nine assigned tokens
the check raises, although the numeric maximum of the limits is ten and
the claim therefore expects the enrollment to pass; with eight assigned
tokens it passes, so the effective ceiling is nine, the lexicographic
string maximum of the gathered values. -/
theorem c4_lexicographic_max :
    check_max_token_user [pe9, pe10] "cornelius" "realm1" "10.0.0.1" 9
      = .error (.policyError "The number of tokens for this user is limited!")
    ∧ check_max_token_user [pe9, pe10] "cornelius" "realm1" "10.0.0.1" 8 = .ok true
    ∧ pyMaxStr "9" ["10"] = "9"
    ∧ (9 : Nat) < 10 :=
  ⟨by rfl, by rfl, by rfl, by decide⟩

/-- C5: the export and import round trip of a single inactive policy
returns the same policy with `active` reset to true: `import_policies`
never passes the exported `active` value to `set_policy`, whose default
is `active=True`, while scope, action, realm, resolver, user and client
survive the trip. -/
theorem c5_roundtrip_drops_active :
    roundTripPolicies [pol5] = some [{ pol5 with active := true }]
    ∧ pol5.active = false :=
  ⟨rfl, rfl⟩
